import Mathlib

/-!
Verification development for the ssh2tcp relay (Go).

The program accepts inbound connections on one transport (TCP or SSH),
and for each inbound data channel dials one outbound channel and splices
bytes in both directions until either side terminates.  This file gives a
shallow embedding of the relay engine and the two transport backends:

* the per-session close-once guard of setupRelay (ssh2tcp.go, sync.Once);
* the dispatcher loop newServerChannel (ssh2tcp.go) as a transition system
  with Go select semantics;
* the accept loop doServer (ssh2tcp.go) as a recursion over the stream of
  accept outcomes;
* the setup pipeline of main together with initClient and initServer;
* the dial paths TcpClient.Connect (tcp.go) and SshClient.Connect (ssh.go).

Concurrency is modelled by explicit interleavings: a trigger list for the
close-once guard, a step relation for the dispatcher and the supervisory
wait, and an outcome stream for the accept loop.  External effects (the
operating system dial and accept results, file reads) are parameters.
-/

namespace Ssh2tcp

/-! ## Close-once guard (setupRelay, ssh2tcp.go lines 98-125)

The session state tracks the sync.Once flag and, as the observable effect,
how many times Close() has been invoked on the outbound channel cdc and
the inbound channel sdc.  The closer closes both channels; once.Do runs
the closer only when the flag is still unset. -/

/-- State of one relay session's teardown: the sync.Once flag and the
number of Close() calls observed by each of the two channels. -/
structure RelayCloseState where
  onceDone : Bool
  cdcCloses : Nat
  sdcCloses : Nat
deriving Repr, DecidableEq

/-- The closer function of setupRelay: close the outbound channel, then
the inbound channel. -/
def closer (s : RelayCloseState) : RelayCloseState :=
  { s with cdcCloses := s.cdcCloses + 1, sdcCloses := s.sdcCloses + 1 }

/-- Model of once.Do(closer): run the closer only if the flag is unset,
and set the flag.  sync.Once serialises concurrent calls, so a sequential
list of calls is a faithful linearisation. -/
def onceDo (s : RelayCloseState) : RelayCloseState :=
  if s.onceDone then s else { closer s with onceDone := true }

/-- The three concurrent triggers that invoke once.Do(closer) in
setupRelay: the inbound-to-outbound copy finishing, the
outbound-to-inbound copy finishing, and the global shutdown signal. -/
inductive CloseTrigger where
  | s2cDone
  | c2sDone
  | shutdown
deriving Repr, DecidableEq

/-- Every trigger performs exactly once.Do(closer). -/
def fireTrigger (s : RelayCloseState) (_ : CloseTrigger) : RelayCloseState :=
  onceDo s

/-- Run a linearised sequence of triggers against the session state. -/
def runTriggers (s : RelayCloseState) : List CloseTrigger → RelayCloseState
  | [] => s
  | t :: ts => runTriggers (fireTrigger s t) ts

/-- Fresh session state: flag unset, no channel closed yet. -/
def initClose : RelayCloseState := ⟨false, 0, 0⟩

theorem onceDo_of_done (s : RelayCloseState) (h : s.onceDone = true) :
    onceDo s = s := by
  simp [onceDo, h]

theorem fireTrigger_onceDone (s : RelayCloseState) (t : CloseTrigger) :
    (fireTrigger s t).onceDone = true ∨ fireTrigger s t = s ∧ s.onceDone = true := by
  by_cases h : s.onceDone = true
  · exact Or.inr ⟨onceDo_of_done s h, h⟩
  · left
    simp [fireTrigger, onceDo, h, closer]

theorem runTriggers_of_done (s : RelayCloseState) (h : s.onceDone = true) :
    ∀ ts, runTriggers s ts = s := by
  intro ts
  induction ts with
  | nil => rfl
  | cons t ts ih =>
      simp only [runTriggers, fireTrigger, onceDo_of_done s h]
      exact ih

/-- C1. For every relay session, whatever (possibly empty, possibly
repeating) order the three triggers fire in, the closer runs at most once:
each channel receives at most one Close() from the guard, exactly one as
soon as any trigger has fired, and the state after the first trigger is
unchanged by all later triggers. -/
theorem close_once_guard (ts : List CloseTrigger) :
    (runTriggers initClose ts).cdcCloses ≤ 1 ∧
    (runTriggers initClose ts).sdcCloses ≤ 1 ∧
    (ts ≠ [] → runTriggers initClose ts = ⟨true, 1, 1⟩) := by
  cases ts with
  | nil => simp [runTriggers, initClose]
  | cons t ts =>
      have hfire : fireTrigger initClose t = ⟨true, 1, 1⟩ := by
        simp [fireTrigger, onceDo, initClose, closer]
      have hrest : runTriggers (fireTrigger initClose t) ts = ⟨true, 1, 1⟩ := by
        rw [hfire]
        exact runTriggers_of_done ⟨true, 1, 1⟩ rfl ts
      refine ⟨?_, ?_, ?_⟩
      · simp [runTriggers, hrest]
      · simp [runTriggers, hrest]
      · intro _
        simpa [runTriggers] using hrest

/-- Witness for close_once_guard: a concrete double-fire sequence
(shutdown after a finished copy) still closes each channel exactly once. -/
theorem close_once_guard_witness :
    (runTriggers initClose [CloseTrigger.s2cDone, CloseTrigger.shutdown]).cdcCloses ≤ 1 ∧
    (runTriggers initClose [CloseTrigger.s2cDone, CloseTrigger.shutdown]).sdcCloses ≤ 1 ∧
    runTriggers initClose [CloseTrigger.s2cDone, CloseTrigger.shutdown] = ⟨true, 1, 1⟩ :=
  ⟨(close_once_guard [CloseTrigger.s2cDone, CloseTrigger.shutdown]).1,
   (close_once_guard [CloseTrigger.s2cDone, CloseTrigger.shutdown]).2.1,
   (close_once_guard [CloseTrigger.s2cDone, CloseTrigger.shutdown]).2.2 (by decide)⟩

/-! ## Channel dispatcher (newServerChannel, ssh2tcp.go lines 70-86)

The dispatcher loops on a two-case select: receive a data channel from
dcs, or observe the closed done channel and return.  Go select semantics:
when several cases can proceed, one is chosen uniformly at random, so a
case is ENABLED exactly when its communication can proceed — the done
case whenever done has been closed, the receive case whenever a sender is
ready on dcs.  The queue field lists the channels whose senders are
ready; spawned lists the sessions handed to setupRelay (each preceded by
wg.Add(1)). -/

/-- State of the dispatcher: whether the done channel is closed, the
inbound channels whose senders are ready on dcs, the relay sessions
spawned so far, and whether the dispatcher has returned. -/
structure DispState where
  doneSet : Bool
  queue : List Nat
  spawned : List Nat
  exited : Bool
deriving Repr, DecidableEq

/-- One select round of newServerChannel.  recv dequeues a ready inbound
channel and spawns a relay session for it (enabled whenever a sender is
ready, independently of done, by Go select semantics); finish takes the
done case and returns (enabled whenever done is closed). -/
inductive DispStep : DispState → DispState → Prop where
  | recv (d : Bool) (c : Nat) (q sp : List Nat) :
      DispStep ⟨d, c :: q, sp, false⟩ ⟨d, q, sp ++ [c], false⟩
  | finish (q sp : List Nat) :
      DispStep ⟨true, q, sp, false⟩ ⟨true, q, sp, true⟩

theorem dispStep_exited (s t : DispState) (h : DispStep s t)
    (he : s.exited = true) : False := by
  cases h <;> simp_all

/-- C2 counterexample: from a state where the shutdown signal is already
set and one inbound channel is ready, the dispatcher can take the receive
case and spawn a new relay session — the claim that no channel is ever
dequeued after shutdown is false under Go select semantics. -/
theorem dispatch_after_shutdown_cex :
    DispStep ⟨true, [7], [], false⟩ ⟨true, [], [7], false⟩ ∧
    (DispState.mk true [] [7] false).spawned ≠ (DispState.mk true [7] [] false).spawned :=
  ⟨DispStep.recv true 7 [] [], by decide⟩

/-- C2 amended.  After the shutdown signal is set, an inbound channel
that is concurrently ready may still be dequeued into a new session (see
the counterexample); but from any not-yet-exited dispatcher state with no
ready inbound channel, every enabled step is the done case: the
dispatcher exits, spawns nothing new, and leaves the already spawned
sessions untouched. -/
theorem dispatch_shutdown_amended (s t : DispState)
    (hd : s.doneSet = true) (hq : s.queue = []) (hr : s.exited = false)
    (h : DispStep s t) :
    t = ⟨true, [], s.spawned, true⟩ ∧ t.spawned = s.spawned := by
  cases h with
  | recv d c q sp => simp_all
  | finish q sp => simp_all

/-- Witness for dispatch_shutdown_amended at a concrete post-shutdown
state with an empty queue taking its only enabled step. -/
theorem dispatch_shutdown_amended_witness :
    DispState.mk true [] [3] true = ⟨true, [], (DispState.mk true [] [3] false).spawned, true⟩ ∧
    (DispState.mk true [] [3] true).spawned = (DispState.mk true [] [3] false).spawned :=
  dispatch_shutdown_amended ⟨true, [], [3], false⟩ ⟨true, [], [3], true⟩
    rfl rfl rfl (DispStep.finish [] [3])

/-! ## Supervisory wait of a dialed session (setupRelay, lines 118-125)

After a successful dial, setupRelay starts the two copy goroutines and
then blocks in a for loop whose single select case is receiving from
done.  The state records whether done is closed, whether both copy tasks
have finished (and hence the close-once guard has fired), and whether the
supervisory task has returned; its deferred wg.Done() releases the
session's outstanding-task slot exactly when it returns. -/

/-- State of the supervisory task of one dialed relay session. -/
structure SupState where
  doneSet : Bool
  copiesFinished : Bool
  returned : Bool
deriving Repr, DecidableEq

/-- The session's outstanding-task counter slot is held until the
supervisory task returns (deferred wg.Done()). -/
def holdsSlot (s : SupState) : Bool := !s.returned

/-- The only step of the supervisory loop: the single select case
receives from the closed done channel, runs once.Do(closer), and
returns.  No step is enabled while done is open, whatever the copy tasks
have done. -/
inductive SupStep : SupState → SupState → Prop where
  | shutdown (c : Bool) : SupStep ⟨true, c, false⟩ ⟨true, c, true⟩

theorem supStep_done (s t : SupState) (h : SupStep s t) : s.doneSet = true := by
  cases h
  rfl

/-- C6. The supervisory task returns only via global shutdown: every step
it takes requires the done channel to be closed, and from any state where
done is still open — even one where both copy tasks have finished and the
guard has fired — no sequence of supervisory steps leads anywhere, so the
task has not returned and still holds its outstanding-task slot. -/
theorem supervisor_returns_only_on_shutdown (c : Bool) (s : SupState)
    (h : Relation.ReflTransGen SupStep ⟨false, c, false⟩ s) :
    s = ⟨false, c, false⟩ ∧ holdsSlot s = true := by
  induction h with
  | refl => exact ⟨rfl, rfl⟩
  | tail _ hstep ih =>
      rename_i b steps
      have hdone := supStep_done _ _ hstep
      rw [ih.1] at hdone
      simp at hdone

/-- Witness for supervisor_returns_only_on_shutdown: a session whose
copies have both finished but with done still open holds its slot. -/
theorem supervisor_returns_only_on_shutdown_witness :
    SupState.mk false true false = ⟨false, true, false⟩ ∧
    holdsSlot ⟨false, true, false⟩ = true :=
  supervisor_returns_only_on_shutdown true ⟨false, true, false⟩
    Relation.ReflTransGen.refl

/-! ## Accept loop (doServer, ssh2tcp.go lines 46-68)

doServer calls Listen() once; on failure it logs and returns.  Otherwise
it loops: call s.Accept(dcs) — a blocking call that, on success, has
already pushed the new channel into dcs (tcp.go line 45, ssh.go line 108)
— return on an accept error, and only then perform a non-blocking select
on done, returning if the shutdown signal is set.

The environment is a stream of accept outcomes (one per accept call, in
order) and a predicate giving the state of the done channel observed at
the non-blocking check after the k-th call.  The loop returns the list of
channels enqueued and the number of accept calls completed. -/

/-- Outcome of one blocking s.Accept(dcs) call: a successfully accepted
and enqueued channel, or an error. -/
inductive AcceptResult where
  | ok (c : Nat)
  | err
deriving Repr, DecidableEq

/-- The accept loop of doServer, after a successful Listen().  accepts is
the stream of outcomes of successive accept calls (a finite prefix of the
run), done k tells whether the done channel is observed closed at the
check following the k-th completed call, and k counts the accept calls
completed so far.  Returns the enqueued channels and the total number of
accept calls completed. -/
def doServerLoop : List AcceptResult → (Nat → Bool) → Nat → List Nat × Nat
  | [], _, k => ([], k)
  | AcceptResult.err :: _, _, k => ([], k + 1)
  | AcceptResult.ok c :: rest, done, k =>
      if done (k + 1) then ([c], k + 1)
      else
        let r := doServerLoop rest done (k + 1)
        (c :: r.1, r.2)

/-- doServer: Listen() first; on bind failure the loop body is never
entered and no accept call is made. -/
def doServer (listenOk : Bool) (accepts : List AcceptResult)
    (done : Nat → Bool) : List Nat × Nat :=
  if listenOk then doServerLoop accepts done 0 else ([], 0)

/-- C7. An accept error ends the loop immediately and permanently: the
loop's entire behaviour is independent of every outcome after the first
error — as if the stream were truncated right after it — so after an
error on the N-th call no later inbound connection is ever processed;
and an error as the very next outcome adds exactly one completed call and
enqueues nothing. -/
theorem accept_error_ends_loop (pre post : List AcceptResult)
    (done : Nat → Bool) (k : Nat) :
    doServerLoop (pre ++ AcceptResult.err :: post) done k =
      doServerLoop (pre ++ [AcceptResult.err]) done k ∧
    doServerLoop (AcceptResult.err :: post) done k = ([], k + 1) := by
  constructor
  · induction pre generalizing k with
    | nil => rfl
    | cons a pre ih =>
        cases a with
        | err => rfl
        | ok c =>
            simp only [List.cons_append, doServerLoop]
            by_cases hd : done (k + 1)
            · simp [hd]
            · simp [hd, ih (k + 1)]
  · rfl

/-- C8. The shutdown signal is consulted only at the non-blocking check
after a successful accept and never interrupts the blocked accept call
itself: even when done is closed the whole time, the in-flight accept
still completes and its channel is still enqueued, and only the next
accept call is prevented — exactly one more call completes and exactly
that one channel is enqueued, whatever outcomes would have followed. -/
theorem shutdown_checked_between_accepts (c : Nat) (rest : List AcceptResult)
    (k : Nat) :
    doServerLoop (AcceptResult.ok c :: rest) (fun _ => true) k = ([c], k + 1) := by
  simp [doServerLoop]

/-! ## Configuration: initClient and initServer (ssh2tcp.go lines 128-197)

A parsed URL carries a scheme, a host and user info; Go's
url.Userinfo.Password() reports whether a password was present, which we
model with an Option.  The SSH client configuration records the user, the
password authentication methods and the fact that the host key callback
is ssh.InsecureIgnoreHostKey().  The hostkey file read and private key
parse are external effects, modelled by an outcome parameter. -/

/-- User info of a parsed URL: username and optional password. -/
structure Userinfo where
  username : String
  password : Option String
deriving Repr, DecidableEq

/-- The parts of a parsed URL that initClient and initServer consult. -/
structure URLRec where
  scheme : String
  host : String
  user : Userinfo
deriving Repr, DecidableEq

/-- The ssh.ClientConfig built by initClient: user, password auth methods,
and whether HostKeyCallback is ssh.InsecureIgnoreHostKey(). -/
structure SshClientCfg where
  user : String
  authPasswords : List String
  insecureIgnoreHostKey : Bool
deriving Repr, DecidableEq

/-- The Client value produced by initClient. -/
inductive ClientModel where
  | tcp (addr : String)
  | ssh (addr : String) (cfg : SshClientCfg)
deriving Repr, DecidableEq

/-- Model of initClient (ssh2tcp.go lines 128-163): switch on the scheme;
for ssh, the address and user depend on the ca flag, the password falls
back to the fixed value when the URL carries none, and the config always
ignores the host key. -/
def initClient (u : URLRec) (ca : String) : Except String ClientModel :=
  if u.scheme = "tcp" then
    Except.ok (ClientModel.tcp u.host)
  else if u.scheme = "ssh" then
    let addr := if ca ≠ "" then ca ++ ":22" else u.host
    let sshUser := if ca ≠ "" then u.user.username ++ "@" ++ u.host else u.user.username
    let sshPass :=
      match u.user.password with
      | some p => p
      | none => "12345678"
    Except.ok (ClientModel.ssh addr ⟨sshUser, [sshPass], true⟩)
  else
    Except.error "Invalid scheme"

/-- Outcome of loading the server host key: reading the file fails,
parsing the key fails, or both succeed. -/
inductive HostkeyOutcome where
  | readFail
  | parseFail
  | keyOk
deriving Repr, DecidableEq

/-- The Server value produced by initServer. -/
inductive ServerModel where
  | tcp (addr : String)
  | ssh (addr : String)
deriving Repr, DecidableEq

/-- Model of initServer (ssh2tcp.go lines 165-197): switch on the scheme;
for ssh, a hostkey read failure or private key parse failure is returned
as an error. -/
def initServer (u : URLRec) (hostkey : HostkeyOutcome) : Except String ServerModel :=
  if u.scheme = "tcp" then
    Except.ok (ServerModel.tcp u.host)
  else if u.scheme = "ssh" then
    match hostkey with
    | HostkeyOutcome.readFail => Except.error "Unable to read hostkey"
    | HostkeyOutcome.parseFail => Except.error "Unable to parse private key"
    | HostkeyOutcome.keyOk => Except.ok (ServerModel.ssh u.host)
  else
    Except.error "Invalid scheme"

/-- C9. For every connect URL with the ssh scheme, initClient succeeds,
the resulting client ignores the host key, and its single password auth
method is the URL password when present and the fixed fallback value
otherwise — in particular, a descriptor carrying no password gets the
fallback credential. -/
theorem ssh_client_insecure_defaults (u : URLRec) (ca : String)
    (hs : u.scheme = "ssh") :
    ∃ addr cfg, initClient u ca = Except.ok (ClientModel.ssh addr cfg) ∧
      cfg.insecureIgnoreHostKey = true ∧
      cfg.authPasswords = [u.user.password.getD "12345678"] := by
  have ht : ¬ u.scheme = "tcp" := by simp [hs]
  refine ⟨if ca ≠ "" then ca ++ ":22" else u.host,
    ⟨if ca ≠ "" then u.user.username ++ "@" ++ u.host else u.user.username,
     [match u.user.password with | some p => p | none => "12345678"], true⟩, ?_, rfl, ?_⟩
  · simp only [initClient, if_neg ht, if_pos hs]
  · cases hp : u.user.password <;> simp [hp]

/-- Witness for ssh_client_insecure_defaults on a concrete password-less
ssh URL: the auth method is the fallback value. -/
theorem ssh_client_insecure_defaults_witness :
    ∃ addr cfg,
      initClient ⟨"ssh", "example.org:22", ⟨"root", none⟩⟩ "" =
        Except.ok (ClientModel.ssh addr cfg) ∧
      cfg.insecureIgnoreHostKey = true ∧
      cfg.authPasswords = [(Userinfo.mk "root" none).password.getD "12345678"] :=
  ssh_client_insecure_defaults ⟨"ssh", "example.org:22", ⟨"root", none⟩⟩ "" rfl

/-! ## Process setup (main, ssh2tcp.go lines 199-245)

main panics when a listen or connect flag is missing, when either URL
fails to parse, or when initClient or initServer returns an error — all
before the doServer and newServerChannel goroutines are started.  The
Listen() call, by contrast, happens inside the doServer goroutine (line
48): its failure makes that goroutine return, and main keeps running. -/

/-- Outcome of process setup: a panic aborting the process, or a running
process whose accept loop is alive exactly when the bind succeeded. -/
inductive ProcOutcome where
  | panicked (msg : String)
  | running (acceptLoopAlive : Bool)
deriving Repr, DecidableEq

/-- External inputs to main: the two flag strings, the parse outcomes of
the two URLs, the ca flag, the hostkey load outcome, and whether the
listening bind inside doServer succeeds. -/
structure MainEnv where
  listenArg : String
  connectArg : String
  listenParse : Option URLRec
  connectParse : Option URLRec
  caArg : String
  hostkey : HostkeyOutcome
  listenBind : Bool
deriving Repr, DecidableEq

/-- Model of the setup phase of main (ssh2tcp.go lines 199-245), followed
by the fate of the doServer goroutine at its Listen() call. -/
def mainSetup (e : MainEnv) : ProcOutcome :=
  if e.listenArg = "" ∨ e.connectArg = "" then
    ProcOutcome.panicked "listen or connect has to be specified"
  else
    match e.listenParse with
    | none => ProcOutcome.panicked "Unable to parse listen URL"
    | some listen =>
      match e.connectParse with
      | none => ProcOutcome.panicked "Unable to parse connect URL"
      | some connect =>
        match initClient connect e.caArg with
        | Except.error _ => ProcOutcome.panicked "Unable to create client"
        | Except.ok _ =>
          match initServer listen e.hostkey with
          | Except.error _ => ProcOutcome.panicked "Unable to create server"
          | Except.ok _ => ProcOutcome.running e.listenBind

/-- Boolean view of an Except value. -/
def exceptOk {ε α : Type} : Except ε α → Bool
  | Except.ok _ => true
  | Except.error _ => false

/-- Boolean view of a setup outcome. -/
def isPanicked : ProcOutcome → Bool
  | ProcOutcome.panicked _ => true
  | ProcOutcome.running _ => false

/-- The configuration and credential errors of the setup phase: missing
flags, URL parse failures, and initClient or initServer errors (invalid
scheme, bad hostkey).  A failed listening bind is deliberately not among
them. -/
def configError (e : MainEnv) : Bool :=
  decide (e.listenArg = "") || decide (e.connectArg = "") ||
  (match e.listenParse with
   | none => true
   | some listen =>
     match e.connectParse with
     | none => true
     | some connect =>
       !exceptOk (initClient connect e.caArg) || !exceptOk (initServer listen e.hostkey))

/-- A well-formed tcp-to-tcp configuration whose listening bind fails. -/
def listenFailEnv : MainEnv :=
  ⟨"tcp://0.0.0.0:1234", "tcp://10.0.0.1:4321",
   some ⟨"tcp", "0.0.0.0:1234", ⟨"", none⟩⟩,
   some ⟨"tcp", "10.0.0.1:4321", ⟨"", none⟩⟩,
   "", HostkeyOutcome.keyOk, false⟩

/-- C3 counterexample: a listen bind failure is a setup error by the
claim's own list, yet the process does not abort — mainSetup yields a
running process (with a dead accept loop), not a panic. -/
theorem setup_error_fatal_cex :
    listenFailEnv.listenBind = false ∧
    mainSetup listenFailEnv = ProcOutcome.running false ∧
    isPanicked (mainSetup listenFailEnv) = false := by
  refine ⟨rfl, ?_, ?_⟩ <;> rfl

/-- C3 amended.  The process aborts exactly on the configuration and
credential errors — missing flags, URL parse failures, invalid schemes,
an unreadable or unparseable host identity credential — all before any
relay session can start; a listen bind failure does not abort the
process: setup completes into a running process whose accept loop is
dead, so it completes no accept call and enqueues no channel, and no
relay session ever starts. -/
theorem setup_errors_amended (e : MainEnv) (accepts : List AcceptResult)
    (dn : Nat → Bool) :
    isPanicked (mainSetup e) = configError e ∧
    (configError e = false → e.listenBind = false →
      mainSetup e = ProcOutcome.running false ∧
      doServer e.listenBind accepts dn = ([], 0)) := by
  obtain ⟨la, co, lp, cp, caA, hk, lb⟩ := e
  constructor
  · by_cases h0 : la = "" ∨ co = ""
    · simp [mainSetup, configError, h0, isPanicked]
    · push_neg at h0
      cases lp with
      | none => simp [mainSetup, configError, h0.1, h0.2, isPanicked]
      | some listen =>
          cases cp with
          | none => simp [mainSetup, configError, h0.1, h0.2, isPanicked]
          | some connect =>
              cases hic : initClient connect caA with
              | error m =>
                  simp [mainSetup, configError, h0.1, h0.2, hic, exceptOk, isPanicked]
              | ok cl =>
                  cases his : initServer listen hk with
                  | error m =>
                      simp [mainSetup, configError, h0.1, h0.2, hic, his, exceptOk,
                        isPanicked]
                  | ok sv =>
                      simp [mainSetup, configError, h0.1, h0.2, hic, his, exceptOk,
                        isPanicked]
  · intro hc hb
    by_cases h0 : la = "" ∨ co = ""
    · exfalso
      rcases h0 with h | h <;> simp [configError, h] at hc
    · push_neg at h0
      cases lp with
      | none => simp [configError, h0.1, h0.2] at hc
      | some listen =>
          cases cp with
          | none => simp [configError, h0.1, h0.2] at hc
          | some connect =>
              cases hic : initClient connect caA with
              | error m => simp [configError, h0.1, h0.2, hic, exceptOk] at hc
              | ok cl =>
                  cases his : initServer listen hk with
                  | error m =>
                      simp [configError, h0.1, h0.2, hic, his, exceptOk] at hc
                  | ok sv =>
                      subst hb
                      constructor
                      · simp [mainSetup, h0.1, h0.2, hic, his]
                      · rfl

/-- Witness for setup_errors_amended at the concrete bind-failure
environment: no panic, a running process, and an accept loop that
completes no call. -/
theorem setup_errors_amended_witness :
    mainSetup listenFailEnv = ProcOutcome.running false ∧
    doServer listenFailEnv.listenBind [AcceptResult.ok 1] (fun _ => false) = ([], 0) :=
  (setup_errors_amended listenFailEnv [AcceptResult.ok 1] (fun _ => false)).2 rfl rfl

/-! ## Relay session startup (setupRelay, ssh2tcp.go lines 88-96)

setupRelay first calls c.Connect() exactly once (there is no loop around
it).  On error it closes the inbound channel sdc and returns — its
deferred wg.Done() releases its own slot — without wg.Add(2) and without
starting either copy goroutine.  It touches no state of any other
session: the pool model makes that explicit. -/

/-- Observable effects of one setupRelay invocation up to and including
the dial: how many times Connect() was called, whether the inbound
channel was closed by the failure path, how many copy goroutines were
started (each preceded by one wg.Add), and whether the session task has
already ended. -/
structure RelayStart where
  dialCalls : Nat
  sdcClosed : Bool
  copyTasksStarted : Nat
  wgAdded : Nat
  ended : Bool
deriving Repr, DecidableEq

/-- Model of the dial phase of setupRelay: one Connect() call; on error
close sdc and return; on success wg.Add(2) and start both copies, the
session continuing into its supervisory wait. -/
def setupRelayStart (dial : Except String Nat) : RelayStart :=
  match dial with
  | Except.error _ => ⟨1, true, 0, 0, true⟩
  | Except.ok _ => ⟨1, false, 2, 2, false⟩

/-- Spawning session i writes only slot i of the session pool. -/
def startSession (pool : Nat → Option RelayStart) (i : Nat)
    (dial : Except String Nat) : Nat → Option RelayStart :=
  fun j => if j = i then some (setupRelayStart dial) else pool j

/-- C4. A failed outbound dial closes the inbound channel and ends the
session after exactly one Connect() call, with no copy task started and
no retry; and spawning that failed session leaves every other session's
slot in the pool unchanged.  The accept loop does not appear in
setupRelay at all: doServer's behaviour is a function of its own stream
of accept outcomes only. -/
theorem dial_failure_local (m : String) (pool : Nat → Option RelayStart)
    (i j : Nat) (hj : j ≠ i) :
    setupRelayStart (Except.error m) = ⟨1, true, 0, 0, true⟩ ∧
    startSession pool i (Except.error m) i = some ⟨1, true, 0, 0, true⟩ ∧
    startSession pool i (Except.error m) j = pool j := by
  refine ⟨rfl, ?_, ?_⟩
  · simp [startSession, setupRelayStart]
  · simp [startSession, hj]

/-- Witness for dial_failure_local: concrete failed dial in session 0 of
a two-session pool, session 1 untouched. -/
theorem dial_failure_local_witness :
    setupRelayStart (Except.error "connection refused") = ⟨1, true, 0, 0, true⟩ ∧
    startSession (fun _ => some ⟨1, false, 2, 2, false⟩) 0 (Except.error "connection refused") 0 =
      some ⟨1, true, 0, 0, true⟩ ∧
    startSession (fun _ => some ⟨1, false, 2, 2, false⟩) 0 (Except.error "connection refused") 1 =
      (fun _ => some (RelayStart.mk 1 false 2 2 false)) 1 :=
  dial_failure_local "connection refused" (fun _ => some ⟨1, false, 2, 2, false⟩) 0 1
    (by decide)

/-! ## TCP dial (TcpClient.Connect, tcp.go lines 20-29)

net.Dial returns a nil connection together with a non-nil error on
failure.  TcpClient.Connect then builds a log field by calling
cc.RemoteAddr().String() in BOTH branches of the if — in the error
branch on the nil interface value, which panics with a nil pointer
dereference before Connect can return the error. -/

/-- A Go interface value holding a network connection: nil, or a live
connection with a remote address. -/
inductive GoConn where
  | nilConn
  | conn (remote : String)
deriving Repr, DecidableEq

/-- Result of evaluating a Go expression that may panic at runtime. -/
inductive GoEval (α : Type) where
  | value (a : α)
  | panicked (msg : String)
deriving Repr, DecidableEq

/-- Whether the evaluation panicked. -/
def isGoPanic {α : Type} : GoEval α → Bool
  | GoEval.value _ => false
  | GoEval.panicked _ => true

/-- Model of cc.RemoteAddr().String(): a method call on a nil interface
connection is a nil pointer dereference. -/
def remoteAddrString : GoConn → GoEval String
  | GoConn.nilConn =>
      GoEval.panicked "runtime error: invalid memory address or nil pointer dereference"
  | GoConn.conn r => GoEval.value r

/-- Outcome of net.Dial: an error with a nil connection, or a live
connection with a nil error. -/
inductive DialOutcome where
  | dialErr (msg : String)
  | dialOk (remote : String)
deriving Repr, DecidableEq

/-- The connection value net.Dial hands back. -/
def dialConn : DialOutcome → GoConn
  | DialOutcome.dialErr _ => GoConn.nilConn
  | DialOutcome.dialOk r => GoConn.conn r

/-- The error value net.Dial hands back. -/
def dialErrMsg : DialOutcome → Option String
  | DialOutcome.dialErr m => some m
  | DialOutcome.dialOk _ => none

/-- Model of TcpClient.Connect: dial, then evaluate the log field
cc.RemoteAddr().String() (in whichever branch of the if was taken), then
return the connection and the dial error.  A panic in the log field
aborts Connect before the return. -/
def tcpConnect (d : DialOutcome) : GoEval (GoConn × Option String) :=
  match remoteAddrString (dialConn d) with
  | GoEval.panicked m => GoEval.panicked m
  | GoEval.value _ => GoEval.value (dialConn d, dialErrMsg d)

/-- C5. Whenever the underlying TCP dial fails, TcpClient.Connect panics
with a nil pointer dereference while building the failure log field, and
so never returns the dial error to the relay session; a successful dial
returns the connection with a nil error. -/
theorem tcp_dial_error_panics (m r : String) :
    tcpConnect (DialOutcome.dialErr m) =
      GoEval.panicked "runtime error: invalid memory address or nil pointer dereference" ∧
    isGoPanic (tcpConnect (DialOutcome.dialErr m)) = true ∧
    tcpConnect (DialOutcome.dialOk r) = GoEval.value (GoConn.conn r, none) :=
  ⟨rfl, rfl, rfl⟩

/-! ## SSH dial (SshClient.Connect, ssh.go lines 42-70)

Connect dials, opens a session, obtains the stdout and stdin pipes —
each failure returned to the caller — then runs err = c.dc.sess.Shell()
and returns (c.dc, nil) without ever inspecting that last err. -/

/-- External outcomes of the five effectful steps of SshClient.Connect. -/
structure SshEnv where
  dial : Except String Unit
  newSession : Except String Unit
  stdoutPipe : Except String Unit
  stdinPipe : Except String Unit
  shell : Except String Unit
deriving Repr

/-- Model of SshClient.Connect: propagate the errors of dial, session
creation and the two pipes; the result of Shell() is assigned to err and
then discarded by the final return of (c.dc, nil). -/
def sshConnect (e : SshEnv) : Except String Unit :=
  match e.dial with
  | Except.error m => Except.error m
  | Except.ok _ =>
    match e.newSession with
    | Except.error m => Except.error m
    | Except.ok _ =>
      match e.stdoutPipe with
      | Except.error m => Except.error m
      | Except.ok _ =>
        match e.stdinPipe with
        | Except.error m => Except.error m
        | Except.ok _ => Except.ok ()

/-- C10. Every call of SshClient.Connect that reaches the Shell() step
returns a nil error whatever Shell() returned — in particular when the
shell start fails — and more generally the entire result of Connect is
independent of the shell outcome, so a caller can never observe a
shell-start failure. -/
theorem shell_error_discarded (shellRes : Except String Unit) :
    sshConnect ⟨Except.ok (), Except.ok (), Except.ok (), Except.ok (), shellRes⟩ =
      Except.ok () ∧
    ∀ (e : SshEnv) (s1 s2 : Except String Unit),
      sshConnect { e with shell := s1 } = sshConnect { e with shell := s2 } := by
  constructor
  · rfl
  · intro e s1 s2
    rfl

end Ssh2tcp
